import Mathlib

/-!
Verification of the AIME-DASHBOARD data pipeline (src/app.py).

This file gives a shallow embedding of the core data pipeline:
JSON-ish values, raw records, the normalizer `to_df` (src/app.py lines
82-108), the aggregator `df_all` (lines 244-245), the digest builder
(lines 276-285, 270-294), the fetcher `fetch_json` (lines 64-80) and the
volume formatter `human_int` (lines 151-158), together with theorems
settling the specification claims about them.
-/

namespace Aime

/-- A JSON-ish scalar value, as stored in a raw record's fields. -/
inductive Value where
  | null : Value
  | str (s : String) : Value
  | num (q : ℚ) : Value
  | bool (b : Bool) : Value
deriving DecidableEq

/-- A raw record: an untyped string-keyed mapping (Python dict). -/
def RawRecord := List (String × Value)

instance : DecidableEq RawRecord := by
  unfold RawRecord
  infer_instance

/-- `r.get(k)`: dictionary lookup returning `None` (here `Value.null`) when
the key is missing, as Python dict `.get` does. -/
def getV (r : RawRecord) (k : String) : Value :=
  match List.lookup k r with
  | some v => v
  | none => Value.null

/-- Python truthiness of a value: `None`, `""`, `0` and `False` are falsy. -/
def truthy : Value → Bool
  | Value.null => false
  | Value.str s => !(s = "")
  | Value.num q => !(q = 0)
  | Value.bool b => b

/-- Python `a or b`: the first operand when it is truthy, otherwise the
second. This is the fallback operator used throughout `to_df`. -/
def orV (a b : Value) : Value :=
  if truthy a then a else b

/-- Value of a run of decimal digit characters. -/
def digitsVal (cs : List Char) : ℕ :=
  cs.foldl (fun n c => n * 10 + (c.toNat - 48)) 0

/-- Parse an unsigned decimal literal (digits with an optional single
point), the shape accepted by the numeric coercion on clean input. -/
def parseUnsigned (cs : List Char) : Option ℚ :=
  let ip := cs.takeWhile Char.isDigit
  let rest := cs.dropWhile Char.isDigit
  match rest with
  | [] => if ip.isEmpty then none else some (mkRat (digitsVal ip) 1)
  | '.' :: rest2 =>
    let fp := rest2.takeWhile Char.isDigit
    let rest3 := rest2.dropWhile Char.isDigit
    if rest3.isEmpty && !(ip.isEmpty && fp.isEmpty) then
      some (mkRat (digitsVal ip * 10 ^ fp.length + digitsVal fp) (10 ^ fp.length))
    else none
  | _ => none

/-- Parse a decimal string with an optional sign; `none` when the string is
not a number. -/
def parseNumStr (s : String) : Option ℚ :=
  match s.toList with
  | '-' :: rest => (parseUnsigned rest).map (fun q => -q)
  | '+' :: rest => parseUnsigned rest
  | cs => parseUnsigned cs

/-- `pd.to_numeric(x, errors="coerce")` on one cell: numbers pass through,
numeric strings are parsed, anything unparseable (and null) becomes null.
Total: no parse failure ever escapes as an exception. -/
def toNumeric : Value → Option ℚ
  | Value.null => none
  | Value.num q => some q
  | Value.str s => parseNumStr s
  | Value.bool b => some (if b then 1 else 0)

/-- The canonical record: the fixed schema every raw record is mapped onto
by `to_df`. `score`, `pct`, `vol` are the numerically coerced columns
(lines 104-106); every other field keeps the raw value selected by the
fallback chain. -/
structure CanonRecord where
  scan : String
  symbol : Value
  score : Option ℚ
  type : Value
  price : Value
  pct : Option ℚ
  vol : Option ℚ
  dir : Value
  vwap : Value
  pos : Value
  momo : Value
deriving DecidableEq

/-- One row of `to_df` (src/app.py lines 89-101), fused with the
elementwise numeric coercion of the `score`, `pct`, `vol` columns
(lines 104-106); `pd.to_numeric` acts cell by cell, so applying it per
row is the same as applying it per column. -/
def canonRow (tag : String) (r : RawRecord) : CanonRecord where
  scan := tag
  symbol := orV (orV (getV r "symbol") (getV r "ticker")) (Value.str "")
  score := toNumeric (getV r "score")
  type := orV (orV (getV r "setup") (getV r "type")) (Value.str tag)
  price := orV (getV r "price") (getV r "current_price")
  pct := toNumeric (orV (getV r "pct") (getV r "gain_pct"))
  vol := toNumeric (orV (getV r "vol") (getV r "latest_volume"))
  dir := getV r "dir"
  vwap := getV r "vwap"
  pos := orV (getV r "pos") (getV r "position")
  momo := orV (getV r "mom_pct") (getV r "momo15")

/-- Descending order with nulls last on one sort key, as
`sort_values(ascending=False, na_position="last")` orders a single
column: `leO a b` says a cell `a` may be placed at or before `b`. -/
def leO : Option ℚ → Option ℚ → Bool
  | some x, some y => decide (y ≤ x)
  | some _, none => true
  | none, some _ => false
  | none, none => true

/-- The sort key of a row: the `(score, pct, vol)` column triple. -/
def sortKey (row : CanonRecord) : Option ℚ × Option ℚ × Option ℚ :=
  (row.score, row.pct, row.vol)

/-- Lexicographic comparison of sort keys: score first, then pct, then
vol, each descending with nulls last. -/
def keyLE (a b : Option ℚ × Option ℚ × Option ℚ) : Bool :=
  if a.1 = b.1 then
    if a.2.1 = b.2.1 then leO a.2.2 b.2.2
    else leO a.2.1 b.2.1
  else leO a.1 b.1

/-- Row order used by the sort in `to_df` line 107. -/
def rowLE (a b : CanonRecord) : Prop :=
  keyLE (sortKey a) (sortKey b) = true

instance : DecidableRel rowLE := fun a b => by
  unfold rowLE
  infer_instance

/-- `to_df(records, scan_tag)` (src/app.py lines 82-108): map every raw
record onto the canonical schema, coerce the numeric columns, and sort by
`(score, pct, vol)` descending with nulls last. The multi-column
`sort_values` of pandas is a stable lexicographic sort, embedded here as
a stable insertion sort on `rowLE`. An empty input yields the empty
collection (line 84-85). -/
def to_df (records : List RawRecord) (tag : String) : List CanonRecord :=
  List.insertionSort rowLE (records.map (canonRow tag))

/-- The aggregator (src/app.py lines 244-245): `pd.concat` of the
per-scan ranked collections in order, ignore_index, then `head(maxRows)`.
The source concatenates its four scan frames; this is that concatenation
for any finite family of collections. -/
def aggregate (colls : List (List CanonRecord)) (maxRows : ℕ) : List CanonRecord :=
  colls.flatten.take maxRows

/-- String rendering of the fractional digits of `num / den` (both
positive, `num < den`), with `fuel` bounding the number of digits; mirrors
how Python prints a terminating decimal fraction. -/
def fracStr (num den : ℤ) : ℕ → String
  | 0 => ""
  | fuel + 1 =>
    if num = 0 then ""
    else toString (num * 10 / den) ++ fracStr (num * 10 % den) den fuel

/-- Python `str` of a nonnegative rational: integers print without a
point, terminating decimals with their digits. -/
def renderQnn (q : ℚ) : String :=
  if q.den = 1 then toString q.num
  else toString (q.num / (q.den : ℤ)) ++ "." ++ fracStr (q.num % (q.den : ℤ)) (q.den : ℤ) 32

/-- Python `str` of a rational number. -/
def renderQ (q : ℚ) : String :=
  if q < 0 then "-" ++ renderQnn (-q) else renderQnn q

/-- Python `str` of a value, as substituted into an f-string. -/
def pyStr : Value → String
  | Value.null => "None"
  | Value.str s => s
  | Value.num q => renderQ q
  | Value.bool b => if b then "True" else "False"

/-- Rendering of a coerced numeric cell in an f-string: a number prints
as itself, a missing value is a NaN cell and prints as Python prints it. -/
def renderOptQ : Option ℚ → String
  | some q => renderQ q
  | none => "nan"

/-- One digest line (src/app.py line 284): symbol, a dollar sign and the
price, an optional bracketed direction segment, then score, percent
change and scan tag, exactly as the f-string lays them out. The
direction d is the dir value or the empty string (line 282), and the
bracketed segment is the empty string when d is falsy. -/
def renderLine (row : CanonRecord) : String :=
  let d := if truthy row.dir then pyStr row.dir else ""
  let dseg := if d = "" then "" else "[" ++ d ++ "]"
  pyStr row.symbol ++ " $" ++ pyStr row.price ++ " " ++ dseg ++
    "  Score:" ++ renderOptQ row.score ++ "  Δ%:" ++ renderOptQ row.pct ++
    "  (" ++ row.scan ++ ")"

/-- The digest text (src/app.py lines 276-285): header line plus one
rendered line per row of `df_all.head(push_n)`, joined by newlines. -/
def buildDigest (rows : List CanonRecord) (pushN : ℕ) : String :=
  "AIMe BEAST — Top Picks\n" ++ String.intercalate "\n" ((rows.take pushN).map renderLine)

/-- Outcome of the Telegram push block (src/app.py lines 270-294): a
missing-credentials error, the "Nothing to send yet." warning, or an
attempted delivery of the digest text. -/
inductive PushOutcome where
  | missingCreds : PushOutcome
  | emptyWarning : PushOutcome
  | send (msg : String) : PushOutcome
deriving DecidableEq

/-- The branch structure of the push block (src/app.py lines 271-285):
error when token or chat id is missing, the distinct "Nothing to send
yet." warning when the aggregated frame is empty, otherwise build the
digest and attempt delivery. -/
def pushDecision (token chatId : String) (rows : List CanonRecord) (pushN : ℕ) :
    PushOutcome :=
  if token = "" ∨ chatId = "" then PushOutcome.missingCreds
  else if rows = [] then PushOutcome.emptyWarning
  else PushOutcome.send (buildDigest rows pushN)

/-- The external world seen by `fetch_json`: what a GET of a URL does and
what the filesystem holds. A `none` body or file content stands for a
JSON parse failure (an exception inside the `try`). -/
structure Env where
  httpFails : String → Bool
  httpStatus : String → ℕ
  httpBody : String → Option (List RawRecord)
  fileExists : String → Bool
  fileJson : String → Option (List RawRecord)

/-- `source.lower().startswith("http")` (src/app.py line 69): the first
four characters, lowercased, spell "http". -/
def isHttpSource (s : String) : Bool :=
  (s.toList.take 4).map Char.toLower = ['h', 't', 't', 'p']

/-- `fetch_json(source)` (src/app.py lines 64-80): empty source yields
`[]`; a source starting with "http" is fetched by GET, where a transport
exception, a non-200 status or a body that fails to parse all yield `[]`;
otherwise the source is a path, read and parsed when it exists, with a
missing file or parse failure yielding `[]`. Total by construction: the
`try/except` means no failure escapes to the caller. -/
def fetch_json (env : Env) (source : String) : List RawRecord :=
  if source = "" then []
  else if isHttpSource source then
    if env.httpFails source then []
    else if env.httpStatus source ≠ 200 then []
    else (env.httpBody source).getD []
  else if env.fileExists source then (env.fileJson source).getD []
  else []

/-- Python `int(x)` on a rational: truncation toward zero, computed as
the toward-zero integer division of numerator by denominator. -/
def truncQ (q : ℚ) : ℤ :=
  q.num.tdiv (q.den : ℤ)

/-- Python `f"{v:.1f}"` for the values produced in `human_int`: one
decimal digit; `n` is the magnitude rounded to tenths,
`⌊|q| * 10 + 1/2⌋ = (20 * |num| + den) / (2 * den)` in integer floor
division. -/
def fmt1 (q : ℚ) : String :=
  let sign := if q.num < 0 then "-" else ""
  let n : ℕ := (20 * q.num.natAbs + q.den) / (2 * q.den)
  sign ++ toString (n / 10) ++ "." ++ toString (n % 10)

/-- Python `float(x)` at the head of `human_int`'s `try`: numbers pass,
numeric strings parse, booleans become 0/1, anything else raises (none). -/
def floatOf : Value → Option ℚ
  | Value.null => none
  | Value.num q => some q
  | Value.str s => parseNumStr s
  | Value.bool b => some (if b then 1 else 0)

/-- Division of a rational by a positive integer, in the normalized form
`mkRat` so that it evaluates; `qdivNat_eq_div` below identifies it with
`q / n`. -/
def qdivNat (q : ℚ) (n : ℕ) : ℚ :=
  mkRat q.num (q.den * n)

/-- `human_int(x)` (src/app.py lines 151-158): k/M suffixing at the
1,000 / 1,000,000 thresholds with one decimal (`x/1_000_000` and
`x/1_000` rendered by `fmt1`), plain `int` below 1,000, and `str(x)`
when `float(x)` raises. -/
def human_int (x : Value) : String :=
  match floatOf x with
  | some q =>
    if 1000000 ≤ q then fmt1 (qdivNat q 1000000) ++ "M"
    else if 1000 ≤ q then fmt1 (qdivNat q 1000) ++ "k"
    else toString (truncQ q)
  | none => pyStr x


/-! ### Concrete sample data used by witnesses -/

/-- A sample canonical row used by concrete witnesses. -/
def exRow : CanonRecord := canonRow "AM" [("ticker", Value.str "XY"), ("score", Value.num 3)]

/-- The digest-line example record of the spec:
`{symbol:"ABC", price:12.5, dir:"up", score:5, pct:2.1, scan:"AM"}`. -/
def exPushRow : CanonRecord where
  scan := "AM"
  symbol := Value.str "ABC"
  score := some 5
  type := Value.str "AM"
  price := Value.num (mkRat 25 2)
  pct := some (mkRat 21 10)
  vol := none
  dir := Value.str "up"
  vwap := Value.null
  pos := Value.null
  momo := Value.null

/-- A record with `dir` absent, for the C6 witness. -/
def exNoDirRow : CanonRecord where
  scan := "AM"
  symbol := Value.str "ABC"
  score := some 5
  type := Value.str "AM"
  price := Value.num (mkRat 25 2)
  pct := some (mkRat 21 10)
  vol := none
  dir := Value.null
  vwap := Value.null
  pos := Value.null
  momo := Value.null

/-- A concrete environment where every URL answers 404 and no file
exists, for the C7 witness. -/
def exEnv : Env where
  httpFails := fun _ => false
  httpStatus := fun _ => 404
  httpBody := fun _ => none
  fileExists := fun _ => false
  fileJson := fun _ => none

/-! ### Order lemmas for the sort relation -/

/-- Generic lexicographic combination of two Boolean comparisons on a
pair: compare the first components, break ties with the second. -/
def lexB {α β : Type} [DecidableEq α] (le1 : α → α → Bool) (le2 : β → β → Bool)
    (a b : α × β) : Bool :=
  if a.1 = b.1 then le2 a.2 b.2 else le1 a.1 b.1

theorem keyLE_eq_lexB (a b : Option ℚ × Option ℚ × Option ℚ) :
    keyLE a b = lexB leO (lexB leO leO) a b := rfl

theorem leO_refl (a : Option ℚ) : leO a a = true := by
  cases a <;> simp [leO]

theorem leO_total (a b : Option ℚ) : leO a b = true ∨ leO b a = true := by
  cases a <;> cases b <;> simp [leO, le_total]

theorem leO_trans (a b c : Option ℚ) (h1 : leO a b = true) (h2 : leO b c = true) :
    leO a c = true := by
  cases a <;> cases b <;> cases c <;> simp_all [leO]
  linarith

theorem leO_antisymm (a b : Option ℚ) (h1 : leO a b = true) (h2 : leO b a = true) :
    a = b := by
  cases a <;> cases b <;> simp_all [leO]
  linarith

theorem lexB_refl {α β : Type} [DecidableEq α] {le1 : α → α → Bool}
    {le2 : β → β → Bool} (h2 : ∀ x, le2 x x = true) (a : α × β) :
    lexB le1 le2 a a = true := by
  simp [lexB, h2]

theorem lexB_total {α β : Type} [DecidableEq α] {le1 : α → α → Bool}
    {le2 : β → β → Bool} (h1 : ∀ x y, le1 x y = true ∨ le1 y x = true)
    (h2 : ∀ x y, le2 x y = true ∨ le2 y x = true) (a b : α × β) :
    lexB le1 le2 a b = true ∨ lexB le1 le2 b a = true := by
  rcases eq_or_ne a.1 b.1 with e | e
  · simp only [lexB, e, if_pos rfl]
    exact h2 _ _
  · simp only [lexB, if_neg e, if_neg (Ne.symm e)]
    exact h1 _ _

theorem lexB_trans {α β : Type} [DecidableEq α] {le1 : α → α → Bool}
    {le2 : β → β → Bool}
    (h1t : ∀ x y z, le1 x y = true → le1 y z = true → le1 x z = true)
    (h1a : ∀ x y, le1 x y = true → le1 y x = true → x = y)
    (h2t : ∀ x y z, le2 x y = true → le2 y z = true → le2 x z = true)
    {a b c : α × β} (hab : lexB le1 le2 a b = true) (hbc : lexB le1 le2 b c = true) :
    lexB le1 le2 a c = true := by
  rcases eq_or_ne a.1 b.1 with e1 | e1 <;> rcases eq_or_ne b.1 c.1 with e2 | e2
  · simp only [lexB, if_pos e1] at hab
    simp only [lexB, if_pos e2] at hbc
    simp only [lexB, if_pos (e1.trans e2)]
    exact h2t _ _ _ hab hbc
  · simp only [lexB, if_neg e2] at hbc
    have e3 : a.1 ≠ c.1 := fun h => e2 (e1.symm.trans h)
    simp only [lexB]
    rw [if_neg e3, e1]
    exact hbc
  · simp only [lexB, if_neg e1] at hab
    have e3 : a.1 ≠ c.1 := fun h => e1 (h.trans e2.symm)
    simp only [lexB]
    rw [if_neg e3, ← e2]
    exact hab
  · simp only [lexB, if_neg e1] at hab
    simp only [lexB, if_neg e2] at hbc
    rcases eq_or_ne a.1 c.1 with e3 | e3
    · have hba : le1 b.1 a.1 = true := by
        rw [e3]
        exact hbc
      exact absurd (h1a _ _ hab hba) e1
    · simp only [lexB]
      rw [if_neg e3]
      exact h1t _ _ _ hab hbc

theorem keyLE_refl (a : Option ℚ × Option ℚ × Option ℚ) : keyLE a a = true := by
  rw [keyLE_eq_lexB]
  exact lexB_refl (fun x => lexB_refl leO_refl x) a

theorem keyLE_total (a b : Option ℚ × Option ℚ × Option ℚ) :
    keyLE a b = true ∨ keyLE b a = true := by
  rw [keyLE_eq_lexB, keyLE_eq_lexB]
  exact lexB_total leO_total (fun x y => lexB_total leO_total leO_total x y) a b

theorem keyLE_trans {a b c : Option ℚ × Option ℚ × Option ℚ}
    (hab : keyLE a b = true) (hbc : keyLE b c = true) : keyLE a c = true := by
  rw [keyLE_eq_lexB] at *
  have h2t : ∀ x y z : Option ℚ × Option ℚ, lexB leO leO x y = true →
      lexB leO leO y z = true → lexB leO leO x z = true :=
    fun _ _ _ hx hy => lexB_trans leO_trans leO_antisymm leO_trans hx hy
  exact lexB_trans leO_trans leO_antisymm h2t hab hbc

instance : IsTotal CanonRecord rowLE :=
  ⟨fun a b => keyLE_total (sortKey a) (sortKey b)⟩

instance : IsTrans CanonRecord rowLE :=
  ⟨fun _ _ _ hab hbc => keyLE_trans hab hbc⟩

theorem rowLE_of_sortKey_eq {a b : CanonRecord} (h : sortKey a = sortKey b) :
    rowLE a b := by
  unfold rowLE
  rw [h]
  exact keyLE_refl _

/-! ### Stability of the sort -/

theorem filter_orderedInsert_pos (p : CanonRecord → Bool) (a : CanonRecord)
    (l : List CanonRecord) (ha : p a = true)
    (hskip : ∀ b ∈ l, ¬ rowLE a b → p b = false) :
    (List.orderedInsert rowLE a l).filter p = a :: l.filter p := by
  induction l with
  | nil => simp [ha]
  | cons b l ih =>
    by_cases hr : rowLE a b
    · rw [List.orderedInsert, if_pos hr, List.filter_cons, ha]
      simp
    · have hb : p b = false := hskip b (List.mem_cons_self b l) hr
      rw [List.orderedInsert, if_neg hr, List.filter_cons, hb, List.filter_cons, hb]
      simp only [Bool.false_eq_true, if_false]
      exact ih (fun c hc hrc => hskip c (List.mem_cons_of_mem b hc) hrc)

theorem filter_orderedInsert_neg (p : CanonRecord → Bool) (a : CanonRecord)
    (l : List CanonRecord) (ha : p a = false) :
    (List.orderedInsert rowLE a l).filter p = l.filter p := by
  induction l with
  | nil => simp [ha]
  | cons b l ih =>
    by_cases hr : rowLE a b
    · rw [List.orderedInsert, if_pos hr, List.filter_cons, ha]
      simp
    · rw [List.orderedInsert, if_neg hr, List.filter_cons, List.filter_cons, ih]

/-- Stability of the embedded sort, in filter form: restricting the sorted
list to the rows carrying any one fixed sort key gives exactly the rows of
the input carrying that key, in their original order. -/
theorem filter_sortKey_insertionSort (k : Option ℚ × Option ℚ × Option ℚ)
    (l : List CanonRecord) :
    (List.insertionSort rowLE l).filter (fun x => decide (sortKey x = k)) =
      l.filter (fun x => decide (sortKey x = k)) := by
  induction l with
  | nil => rfl
  | cons a l ih =>
    rw [List.insertionSort]
    by_cases ha : sortKey a = k
    · rw [filter_orderedInsert_pos _ a _ (by simp [ha]) ?_, ih, List.filter_cons]
      · simp [ha]
      · intro b _ hr
        simp only [decide_eq_false_iff_not]
        intro hbk
        exact hr (rowLE_of_sortKey_eq (ha.trans hbk.symm))
    · rw [filter_orderedInsert_neg _ _ _ (by simp [ha]), ih, List.filter_cons]
      simp [ha]

theorem string_append_empty (s : String) : s ++ "" = s := by
  cases s with
  | mk data =>
    show String.mk (data ++ []) = String.mk data
    rw [List.append_nil]

theorem qdivNat_eq_div (q : ℚ) (n : ℕ) : qdivNat q n = q / n := by
  rw [qdivNat, Rat.mkRat_eq_div]
  push_cast
  rw [div_mul_eq_div_div, Rat.num_div_den]

/-! ### Claim theorems -/

/-- C1: `to_df` is total (the embedding is a total function, so no
exception escapes), every input record yields exactly one output row —
the output length equals the input length, whatever fields are missing —
and the empty (or absent, which Python's `if not records` treats the same
way) input yields the empty collection rather than an error. -/
theorem c1_normalize_length (records : List RawRecord) (tag : String) :
    (to_df records tag).length = records.length ∧ to_df [] tag = [] := by
  constructor
  · rw [to_df, List.length_insertionSort, List.length_map]
  · rfl

/-- C2, counterexample: a raw record carrying both `type` and `setup` is
normalized with the `setup` value, not the `type` value, because line 93
of src/app.py reads `r.get("setup") or r.get("type") or scan_tag` with
`setup` first; the claim's stated precedence (`type` first) is false. -/
theorem c2_counterexample :
    ((to_df [[("type", Value.str "T"), ("setup", Value.str "S")]] "AM").map
        (fun row => row.type) = [Value.str "S"]) ∧
      Value.str "S" ≠ Value.str "T" := by
  constructor
  · rfl
  · decide

/-- C2, amended: `to_df` builds exactly one canonical row per raw record
(up to the final sort, a permutation), and each row is built by the
fallback chains of lines 89-101 — with `type` taking `setup` first, then
`type`, then the scan tag, so that a record carrying a truthy `setup`
always gets its `setup` value; the `scan` field is always the scan tag;
`score`, `dir`, `vwap` have no fallback. -/
theorem c2_field_precedence :
    (∀ (records : List RawRecord) (tag : String),
      List.Perm (to_df records tag) (records.map (canonRow tag))) ∧
    (∀ (r : RawRecord) (tag : String),
      (canonRow tag r).scan = tag ∧
      (canonRow tag r).symbol = orV (orV (getV r "symbol") (getV r "ticker")) (Value.str "") ∧
      (canonRow tag r).score = toNumeric (getV r "score") ∧
      (canonRow tag r).type = orV (orV (getV r "setup") (getV r "type")) (Value.str tag) ∧
      (canonRow tag r).price = orV (getV r "price") (getV r "current_price") ∧
      (canonRow tag r).pct = toNumeric (orV (getV r "pct") (getV r "gain_pct")) ∧
      (canonRow tag r).vol = toNumeric (orV (getV r "vol") (getV r "latest_volume")) ∧
      (canonRow tag r).dir = getV r "dir" ∧
      (canonRow tag r).vwap = getV r "vwap" ∧
      (canonRow tag r).pos = orV (getV r "pos") (getV r "position") ∧
      (canonRow tag r).momo = orV (getV r "mom_pct") (getV r "momo15")) ∧
    (∀ (r : RawRecord) (tag : String), truthy (getV r "setup") = true →
      (canonRow tag r).type = getV r "setup") := by
  refine ⟨fun records tag => List.perm_insertionSort rowLE _, ?_, ?_⟩
  · intro r tag
    exact ⟨rfl, rfl, rfl, rfl, rfl, rfl, rfl, rfl, rfl, rfl, rfl⟩
  · intro r tag h
    simp [canonRow, orV, h]

/-- Witness for C2's amended theorem: a concrete record carrying both
`setup` and `type` gets its `setup` value as `type`. -/
theorem c2_field_precedence_w :
    (canonRow "AM" [("setup", Value.str "S"), ("type", Value.str "T")]).type =
      getV [("setup", Value.str "S"), ("type", Value.str "T")] "setup" :=
  c2_field_precedence.2.2 [("setup", Value.str "S"), ("type", Value.str "T")] "AM"
    (by decide)

/-- C3: the collection returned by `to_df` is sorted by the triple
(`score` descending, `pct` descending, `vol` descending) with a null in
any comparison step ordered after every non-null value — `rowLE` encodes
exactly that order — and the sort is stable: for every fixed sort key,
the rows carrying it appear in their original (pre-sort) relative
order. -/
theorem c3_sorted_and_stable (records : List RawRecord) (tag : String) :
    List.Sorted rowLE (to_df records tag) ∧
    ∀ k, (to_df records tag).filter (fun row => decide (sortKey row = k)) =
      (records.map (canonRow tag)).filter (fun row => decide (sortKey row = k)) := by
  constructor
  · exact List.sorted_insertionSort rowLE _
  · intro k
    exact filter_sortKey_insertionSort k _

/-- C4: the aggregator concatenates the input collections in order —
every position below `maxRows` of the output is the corresponding
position of the plain concatenation, so no cross-collection re-sorting
happens — and truncates, the output length being
`min(sum of input lengths, maxRows)`. -/
theorem c4_aggregate_concat_truncate (colls : List (List CanonRecord)) (maxRows : ℕ) :
    (aggregate colls maxRows).length = min ((colls.map List.length).sum) maxRows ∧
    ∀ i < maxRows, (aggregate colls maxRows)[i]? = colls.flatten[i]? := by
  constructor
  · rw [aggregate, List.length_take, List.length_flatten, Nat.min_comm]
  · intro i hi
    rw [aggregate]
    exact List.getElem?_take_of_lt hi


/-- Witness for C4: at a concrete family and index, the truncated
aggregation agrees with the concatenation. -/
theorem c4_aggregate_concat_truncate_w :
    (aggregate [[exRow], [exRow]] 5)[0]? = ([[exRow], [exRow]] : List (List CanonRecord)).flatten[0]? :=
  (c4_aggregate_concat_truncate [[exRow], [exRow]] 5).2 0 (by decide)

/-- C5: no record is dropped by the numeric coercion (the lengths agree),
every output row's `score`, `pct`, `vol` are the total `toNumeric`
coercion — of type `Option ℚ`, so each is a (finite) rational or null and
no parse exception can reach the caller — of the corresponding raw
values, and a string that does not parse as a number coerces to null. -/
theorem c5_numeric_coercion (records : List RawRecord) (tag : String) :
    (to_df records tag).length = records.length ∧
    (∀ row ∈ to_df records tag, ∃ r ∈ records,
      row.score = toNumeric (getV r "score") ∧
      row.pct = toNumeric (orV (getV r "pct") (getV r "gain_pct")) ∧
      row.vol = toNumeric (orV (getV r "vol") (getV r "latest_volume"))) ∧
    toNumeric (Value.str "not a number") = none := by
  refine ⟨?_, ?_, rfl⟩
  · rw [to_df, List.length_insertionSort, List.length_map]
  · intro row h
    rw [to_df, List.mem_insertionSort] at h
    obtain ⟨r, hr, hrow⟩ := List.mem_map.mp h
    exact ⟨r, hr, by rw [← hrow]; exact ⟨rfl, rfl, rfl⟩⟩

/-- Witness for C5: the coerced fields of a concrete normalized row. -/
theorem c5_numeric_coercion_w :
    ∃ r ∈ ([[("ticker", Value.str "XY"), ("score", Value.num 3)]] : List RawRecord),
      exRow.score = toNumeric (getV r "score") ∧
      exRow.pct = toNumeric (orV (getV r "pct") (getV r "gain_pct")) ∧
      exRow.vol = toNumeric (orV (getV r "vol") (getV r "latest_volume")) :=
  (c5_numeric_coercion [[("ticker", Value.str "XY"), ("score", Value.num 3)]] "AM").2.1
    exRow (by decide)


/-- C6: the digest line of the spec's example record renders exactly as
claimed; in general a row with a non-empty string `dir` renders with the
bracketed segment in the claimed shape, and a row with a falsy (absent or
empty) `dir` renders with the bracketed segment omitted entirely — no
empty brackets, only the surrounding spaces of the f-string remain. -/
theorem c6_digest_line :
    renderLine exPushRow = "ABC $12.5 [up]  Score:5  Δ%:2.1  (AM)" ∧
    (∀ (row : CanonRecord) (s : String), row.dir = Value.str s → s ≠ "" →
      renderLine row = pyStr row.symbol ++ " $" ++ pyStr row.price ++ " " ++
        ("[" ++ s ++ "]") ++ "  Score:" ++ renderOptQ row.score ++ "  Δ%:" ++
        renderOptQ row.pct ++ "  (" ++ row.scan ++ ")") ∧
    (∀ row : CanonRecord, truthy row.dir = false →
      renderLine row = pyStr row.symbol ++ " $" ++ pyStr row.price ++ " " ++
        "  Score:" ++ renderOptQ row.score ++ "  Δ%:" ++ renderOptQ row.pct ++
        "  (" ++ row.scan ++ ")") := by
  refine ⟨by decide, ?_, ?_⟩
  · intro row s hdir hs
    simp [renderLine, hdir, truthy, pyStr, hs]
  · intro row h
    simp [renderLine, h, string_append_empty]


/-- Witness for C6: the example record without `dir` renders without the
bracketed segment. -/
theorem c6_digest_line_w :
    renderLine exNoDirRow = pyStr exNoDirRow.symbol ++ " $" ++ pyStr exNoDirRow.price ++
      " " ++ "  Score:" ++ renderOptQ exNoDirRow.score ++ "  Δ%:" ++
      renderOptQ exNoDirRow.pct ++ "  (" ++ exNoDirRow.scan ++ ")" :=
  c6_digest_line.2.2 exNoDirRow rfl

/-- C7: every failure mode of `fetch_json` yields the empty result — an
empty source immediately, a URL on transport failure, non-200 status or
unparseable body, a path on missing file or parse failure — and, being a
total function, it never raises to its caller. -/
theorem c7_fetch_never_raises (env : Env) (source : String) :
    (source = "" → fetch_json env source = []) ∧
    (isHttpSource source = true → env.httpFails source = true →
      fetch_json env source = []) ∧
    (isHttpSource source = true → env.httpStatus source ≠ 200 →
      fetch_json env source = []) ∧
    (isHttpSource source = true → env.httpFails source = false →
      env.httpBody source = none → fetch_json env source = []) ∧
    (source ≠ "" → isHttpSource source = false →
      env.fileExists source = false → fetch_json env source = []) ∧
    (source ≠ "" → isHttpSource source = false →
      env.fileExists source = true → env.fileJson source = none →
      fetch_json env source = []) := by
  refine ⟨?_, ?_, ?_, ?_, ?_, ?_⟩
  · intro h
    simp [fetch_json, h]
  · intro hu hf
    simp [fetch_json, hu, hf]
  · intro hu hs
    rcases eq_or_ne source "" with he | he
    · simp [fetch_json, he]
    · rcases h : env.httpFails source with _ | _ <;>
        simp [fetch_json, he, hu, h, hs]
  · intro hu hf hb
    rcases eq_or_ne source "" with he | he
    · simp [fetch_json, he]
    · by_cases hs : env.httpStatus source = 200 <;>
        simp [fetch_json, he, hu, hf, hb, hs]
  · intro he hu hx
    simp [fetch_json, he, hu, hx]
  · intro he hu hx hj
    simp [fetch_json, he, hu, hx, hj]


/-- Witness for C7: fetching a URL that answers a non-200 status yields
the empty result. -/
theorem c7_fetch_never_raises_w :
    fetch_json exEnv "http://bad-host/x" = [] :=
  (c7_fetch_never_raises exEnv "http://bad-host/x").2.2.1 (by decide) (by decide)

/-- C8: the push block attempts delivery only when the aggregated
collection is non-empty; with credentials present and an empty
collection it signals the distinct "Nothing to send yet." warning (not
an error) and attempts no delivery. -/
theorem c8_empty_digest_no_send (token chatId : String) (rows : List CanonRecord)
    (pushN : ℕ) :
    (∀ msg, pushDecision token chatId rows pushN = PushOutcome.send msg → rows ≠ []) ∧
    (token ≠ "" → chatId ≠ "" → rows = [] →
      pushDecision token chatId rows pushN = PushOutcome.emptyWarning) := by
  constructor
  · intro msg hsend
    unfold pushDecision at hsend
    split_ifs at hsend with h1 h2
    · exact fun hr => by
        rw [hr] at h2
        exact h2 rfl
  · intro ht hc hr
    unfold pushDecision
    rw [if_neg (by tauto), if_pos hr]

/-- Witness for C8: with credentials set and nothing aggregated, the
outcome is the empty-digest warning. -/
theorem c8_empty_digest_no_send_w :
    pushDecision "tok" "chat" [] 20 = PushOutcome.emptyWarning :=
  (c8_empty_digest_no_send "tok" "chat" [] 20).2 (by decide) (by decide) rfl


/-- C9: `human_int` formats 1200000 as "1.2M", 1500 as "1.5k" and 999 as
"999"; in general the M suffix applies exactly from the 1,000,000
threshold, the k suffix from the 1,000 threshold, and below 1,000 the
value prints as a plain truncated integer. -/
theorem c9_human_int :
    human_int (Value.num 1200000) = "1.2M" ∧
    human_int (Value.num 1500) = "1.5k" ∧
    human_int (Value.num 999) = "999" ∧
    (∀ q : ℚ, 1000000 ≤ q → human_int (Value.num q) = fmt1 (q / 1000000) ++ "M") ∧
    (∀ q : ℚ, 1000 ≤ q → q < 1000000 →
      human_int (Value.num q) = fmt1 (q / 1000) ++ "k") ∧
    (∀ q : ℚ, q < 1000 → human_int (Value.num q) = toString (truncQ q)) := by
  refine ⟨by decide, by decide, by decide, ?_, ?_, ?_⟩
  · intro q h
    simp only [human_int, floatOf]
    rw [if_pos h, qdivNat_eq_div]
    norm_num
  · intro q h1 h2
    simp only [human_int, floatOf]
    rw [if_neg (not_le.mpr h2), if_pos h1, qdivNat_eq_div]
    norm_num
  · intro q h
    simp only [human_int, floatOf]
    rw [if_neg (not_le.mpr (by linarith)), if_neg (not_le.mpr h)]

/-- Witness for C9: a value in the k range formats with the k suffix. -/
theorem c9_human_int_w :
    human_int (Value.num 2500) = fmt1 ((2500 : ℚ) / 1000) ++ "k" :=
  c9_human_int.2.2.2.2.1 2500 (by norm_num) (by norm_num)

/-- C10: the field fallbacks of `to_df` trigger on any falsy primary
value, not only a missing one: whenever the preferred key holds a falsy
value (null, 0, "" or False) the canonical field takes the fallback
key's value — in particular a record with `pct = 0` and `gain_pct = 1`
normalizes to `pct = 1`, and a record with `symbol = ""` takes its
`ticker` value. -/
theorem c10_falsy_fallback :
    (∀ (r : RawRecord) (tag : String), truthy (getV r "pct") = false →
      (canonRow tag r).pct = toNumeric (getV r "gain_pct")) ∧
    (∀ (r : RawRecord) (tag : String), truthy (getV r "symbol") = false →
      truthy (getV r "ticker") = true →
      (canonRow tag r).symbol = getV r "ticker") ∧
    ((to_df [[("pct", Value.num 0), ("gain_pct", Value.num 1)]] "AM").map
      (fun row => row.pct) = [some 1]) ∧
    ((to_df [[("symbol", Value.str ""), ("ticker", Value.str "XYZ")]] "AM").map
      (fun row => row.symbol) = [Value.str "XYZ"]) := by
  refine ⟨?_, ?_, by decide, by decide⟩
  · intro r tag h
    simp [canonRow, orV, h]
  · intro r tag h1 h2
    simp [canonRow, orV, h1, h2]

/-- Witness for C10: the concrete record with a zero `pct` takes its
`gain_pct` value. -/
theorem c10_falsy_fallback_w :
    (canonRow "AM" [("pct", Value.num 0), ("gain_pct", Value.num 1)]).pct =
      toNumeric (getV [("pct", Value.num 0), ("gain_pct", Value.num 1)] "gain_pct") :=
  c10_falsy_fallback.1 [("pct", Value.num 0), ("gain_pct", Value.num 1)] "AM" (by decide)

end Aime
